import Mathlib

/-!
Verification of `src/packages/agents-core/src/utils/zodJsonSchemaCompat.ts`.

The TypeScript module converts an opaque, duck-typed Zod schema node into a
JSON Schema (draft-07) document.  We shallowly embed the JavaScript values the
module manipulates as the inductive type `JVal`, and translate every function
of the module (`unwrapDecorators`, `convertSchema`, the per-kind builders,
`findUnrepresentableTypes`, `tryZod4NativeCompat`, `zodJsonSchemaCompat`, …)
into Lean.  General recursion in the source is embedded with an explicit fuel
parameter; fuel exhaustion always yields the failure result (`none` / `[]`),
never a fabricated success, so every success of the embedding corresponds to a
run of the source code.
-/

namespace ZodCompat

/-- A JavaScript value as seen by the converter.  Plain data is represented
structurally; a Zod schema node is the `node` constructor carrying the result
of introspection (its `kind` tag and its definition bag), its own `shape`
property (if any) and whether it carries the Zod-4 `_zod` marker.
`jfn` models a zero-argument function used as a deferred `shape`; `none`
means calling it throws. -/
inductive JVal : Type where
  | jundefined : JVal
  | jnull : JVal
  | jbool : Bool → JVal
  | jnum : Int → JVal
  | jstr : String → JVal
  | jarr : List JVal → JVal
  | jobj : List (String × JVal) → JVal
  | node : Option String → Option (List (String × JVal)) → Option JVal → Bool → JVal
  | jfn : Option (List (String × JVal)) → JVal
deriving Repr

/-- Compare two lists elementwise with a given comparison. -/
def jeqList (f : JVal → JVal → Bool) : List JVal → List JVal → Bool
  | [], [] => true
  | a :: as, b :: bs => f a b && jeqList f as bs
  | _, _ => false

/-- Compare two field lists with a given value comparison. -/
def jeqFields (f : JVal → JVal → Bool) :
    List (String × JVal) → List (String × JVal) → Bool
  | [], [] => true
  | (k1, v1) :: as, (k2, v2) :: bs => k1 == k2 && f v1 v2 && jeqFields f as bs
  | _, _ => false

/-- Compare two optional field lists with a given value comparison. -/
def jeqOptFields (f : JVal → JVal → Bool) :
    Option (List (String × JVal)) → Option (List (String × JVal)) → Bool
  | none, none => true
  | some a, some b => jeqFields f a b
  | _, _ => false

/-- Structural equality on `JVal` up to a depth bound (structural recursion
on the bound, so that it evaluates by kernel reduction).  This models the
JavaScript `===` reference-identity guards: structural equality is the only
identity an inductive tree can express (see the graph model below for
genuine aliasing).  The guards live inside fueled loops and compare at the
loop's own fuel; with sufficient fuel the comparison is exact, and in the
tree model the guard can never fire anyway, because the next node is always
a strict subterm of the current one. -/
def jeqF : Nat → JVal → JVal → Bool
  | 0, _, _ => false
  | fuel + 1, a, b =>
    match a, b with
    | .jundefined, .jundefined => true
    | .jnull, .jnull => true
    | .jbool x, .jbool y => x == y
    | .jnum x, .jnum y => x == y
    | .jstr x, .jstr y => x == y
    | .jarr xs, .jarr ys => jeqList (jeqF fuel) xs ys
    | .jobj xs, .jobj ys => jeqFields (jeqF fuel) xs ys
    | .node k1 d1 s1 z1, .node k2 d2 s2 z2 =>
        k1 == k2 && jeqOptFields (jeqF fuel) d1 d2 &&
        (match s1, s2 with
          | none, none => true
          | some v1, some v2 => jeqF fuel v1 v2
          | _, _ => false) &&
        z1 == z2
    | .jfn x, .jfn y => jeqOptFields (jeqF fuel) x y
    | _, _ => false

/-- JavaScript truthiness: `undefined`, `null`, `false`, `0` and `""` are
falsy, everything else (objects, arrays, functions) is truthy. -/
def truthy : JVal → Bool
  | .jundefined => false
  | .jnull => false
  | .jbool b => b
  | .jnum n => n != 0
  | .jstr s => s != ""
  | _ => true

/-- `typeof v === 'object'` (note `typeof null === 'object'`; functions are
`'function'`). -/
def typeofIsObject : JVal → Bool
  | .jnull => true
  | .jarr _ => true
  | .jobj _ => true
  | .node _ _ _ _ => true
  | _ => false

/-- The `typeof` string of a value. -/
def jsTypeof : JVal → String
  | .jundefined => "undefined"
  | .jnull => "object"
  | .jbool _ => "boolean"
  | .jnum _ => "number"
  | .jstr _ => "string"
  | .jfn _ => "function"
  | _ => "object"

/-- First binding of a key in a field list (a JS object has at most one,
so this is ordinary property lookup). -/
def lookupField (fields : List (String × JVal)) (key : String) : Option JVal :=
  match fields with
  | [] => none
  | (k, v) :: rest => if k = key then some v else lookupField rest key

/-- `def?.key`: member access on a possibly-absent definition bag; an absent
bag or an absent key reads as `undefined`. -/
def mget (d : Option (List (String × JVal))) (key : String) : JVal :=
  match d with
  | none => .jundefined
  | some fields => (lookupField fields key).getD .jundefined

/-- The `??` operator: take the right operand when the left is
`undefined` or `null`. -/
def nullish (a b : JVal) : JVal :=
  match a with
  | .jundefined => b
  | .jnull => b
  | _ => a

/-- `v === null`. -/
def isJNull : JVal → Bool
  | .jnull => true
  | _ => false

/-- The `||` operator: take the right operand when the left is falsy. -/
def orTruthy (a b : JVal) : JVal :=
  if truthy a then a else b

/-- `Object.entries` of a value, as used on shape records.  For the opaque
`node` constructor the (unmodelled) enumerable properties are stipulated to
be empty. -/
def objEntries : JVal → List (String × JVal)
  | .jobj es => es
  | .jarr xs => (List.range xs.length).zip xs |>.map fun p => (toString p.1, p.2)
  | _ => []

/-- `Object.values` of a value (same stipulation as `objEntries`). -/
def objValues : JVal → List JVal
  | .jobj es => es.map Prod.snd
  | .jarr xs => xs
  | _ => []

/-- Modelled from the spec: the Node Introspector's kind probe
(`readZodType` from `./zodCompat`, whose source is not part of this corpus).
Per §4.1 it extracts the `kind` tag of a schema node by probing conventional
field names and returns "not a schema node" otherwise; the embedding stores
the probe's result directly on the `node` constructor. -/
def readZodType : JVal → Option String
  | .node kind _ _ _ => kind
  | _ => none

/-- Modelled from the spec: the Node Introspector's definition probe
(`readZodDefinition` from `./zodCompat`, source not in this corpus).  Per
§4.1 it extracts the kind-specific definition bag of a schema node; the
embedding stores the probe's result directly on the `node` constructor. -/
def readZodDefinition : JVal → Option (List (String × JVal))
  | .node _ d _ _ => d
  | _ => none

/-- The value of `candidate.shape` (own property probe used by `readShape`). -/
def getShapeProp : JVal → JVal
  | .node _ _ s _ => s.getD .jundefined
  | .jobj es => (lookupField es "shape").getD .jundefined
  | _ => .jundefined

/-- `readShape` from the source: probe `candidate.shape` (object directly,
function called inside try/catch), then `readZodDefinition(candidate)?.shape`
the same way. -/
def readShape (input : JVal) : Option (List (String × JVal)) :=
  if !typeofIsObject input || isJNull input then none
  else
    let own := getShapeProp input
    if truthy own && typeofIsObject own then some (objEntries own)
    else
      match own with
      | .jfn r => r
      | _ =>
        let shape := mget (readZodDefinition input) "shape"
        if truthy shape && typeofIsObject shape then some (objEntries shape)
        else
          match shape with
          | .jfn r => r
          | _ => none

/-- `'_zod' in input`: the structural marker of the Zod-4 representation. -/
def hasZod4Marker : JVal → Bool
  | .node _ _ _ z4 => z4
  | .jobj es => es.any fun p => p.1 == "_zod"
  | _ => false

/-- `hasJsonSchemaObjectShape` from the source: a non-null object with
`type === 'object'` and both `properties` and `additionalProperties` keys. -/
def hasJsonSchemaObjectShape : JVal → Bool
  | .jobj es =>
      (match lookupField es "type" with
        | some (.jstr t) => t == "object"
        | _ => false) &&
      (es.any fun p => p.1 == "properties") &&
      (es.any fun p => p.1 == "additionalProperties")
  | _ => false

/-- `OPTIONAL_WRAPPERS` from the source. -/
def optionalWrappers : List String := ["optional"]

/-- `DECORATOR_WRAPPERS` from the source. -/
def decoratorWrappers : List String :=
  ["brand", "branded", "catch", "default", "effects", "pipeline", "pipe",
   "prefault", "readonly", "refinement", "transform"]

/-- A produced JSON Schema entry (the output sum type of the converter):
`prim` is `{type, format?}`, `objE` is the object document shape
`{type:'object', properties, required?, additionalProperties?, $schema?}`,
`arrE` is `{type:'array', items, uniqueItems?}` (flag set only by the set
builder), `tupleE` is `{type:'array', items: Entry[], minItems, maxItems?}`,
`anyOfE` is `{anyOf}`, `allOfE` is `{allOf}`, `recordE` is
`{type:'object', additionalProperties: Entry}`, `litE` is `{const, type}`
and `enumE` is `{enum}`. -/
inductive Entry : Type where
  | prim : String → Option String → Entry
  | objE : List (String × Entry) → Option (List String) → Option Bool → Option String → Entry
  | arrE : Entry → Bool → Entry
  | tupleE : List Entry → Nat → Option Nat → Entry
  | anyOfE : List Entry → Entry
  | allOfE : List Entry → Entry
  | recordE : Entry → Entry
  | litE : JVal → String → Entry
  | enumE : List JVal → Entry
deriving Repr

/-- `SIMPLE_TYPE_MAPPING` from the source (`type in SIMPLE_TYPE_MAPPING`
lookup). -/
def simpleTypeMapping : String → Option Entry
  | "string" => some (.prim "string" none)
  | "number" => some (.prim "number" none)
  | "bigint" => some (.prim "integer" none)
  | "boolean" => some (.prim "boolean" none)
  | "date" => some (.prim "string" (some "date-time"))
  | _ => none

/-- `JSON_SCHEMA_DRAFT_07` from the source. -/
def JSON_SCHEMA_DRAFT_07 : String := "http://json-schema.org/draft-07/schema#"

/-- `unwrapDecorators` from the source, with explicit fuel for the `while`
loop: while the current kind is a decorator, step to the first non-nullish
of `innerType ?? schema ?? base ?? type ?? wrapped ?? underlying`, stopping
when that value is falsy or identical to the current node. -/
def unwrapDecorators : Nat → JVal → JVal
  | 0, current => current
  | fuel + 1, current =>
    if decoratorWrappers.contains ((readZodType current).getD "") then
      let d := readZodDefinition current
      let next :=
        nullish (mget d "innerType") (nullish (mget d "schema")
          (nullish (mget d "base") (nullish (mget d "type")
            (nullish (mget d "wrapped") (mget d "underlying")))))
      if !truthy next || jeqF (fuel + 1) next current then current
      else unwrapDecorators fuel next
    else current

/-- The `while (OPTIONAL_WRAPPERS.has(...))` loop of `convertProperty`: each
crossed `optional` layer marks the property optional and steps to the
decorator-stripped `innerType`, stopping when that is falsy or identical. -/
def optLoop : Nat → JVal → Bool → JVal × Bool
  | 0, current, opt => (current, opt)
  | fuel + 1, current, opt =>
    if optionalWrappers.contains ((readZodType current).getD "") then
      let next := unwrapDecorators (fuel + 1) (mget (readZodDefinition current) "innerType")
      if !truthy next || jeqF (fuel + 1) next current then (current, true)
      else optLoop fuel next true
    else (current, opt)

/-- `extractFirst` from the source: the first listed key that is present in
the definition bag with a non-`undefined` value. -/
def extractFirst (d : Option (List (String × JVal))) : List String → JVal
  | [] => .jundefined
  | key :: rest =>
    match d with
    | none => .jundefined
    | some fields =>
      match lookupField fields key with
      | some .jundefined => extractFirst d rest
      | some v => v
      | none => extractFirst d rest

/-- `coerceArray` from the source. -/
def coerceArray : JVal → List JVal
  | .jarr xs => xs
  | .jundefined => []
  | v => [v]

/-- A scanner diagnostic `{type, path}`. -/
structure Diag : Type where
  type : String
  path : String
deriving DecidableEq, Repr

/-- The fixed list of kinds Zod 4's `toJSONSchema` cannot represent
(`unrepresentableTypes` inside `findUnrepresentableTypes`). -/
def unrepresentableKinds : List String :=
  ["set", "map", "date", "promise", "function", "custom", "nan",
   "undefined", "void", "symbol"]

/-- The recursive `check` worker of `findUnrepresentableTypes`, with fuel for
the general recursion.  Diagnostics are returned in the source's push order
(depth-first, declaration order). -/
def checkUnrep : Nat → JVal → String → List Diag
  | 0, _, _ => []
  | fuel + 1, value, currentPath =>
    if !truthy value || !typeofIsObject value then []
    else
      let d := readZodDefinition value
      let ty := (readZodType value).getD ""
      if ty != "" && unrepresentableKinds.contains ty then [⟨ty, currentPath⟩]
      else if ty == "object" then
        match readShape value with
        | some entries =>
            entries.flatMap fun kv => checkUnrep fuel kv.2 (currentPath ++ "." ++ kv.1)
        | none => []
      else if ty == "array" then
        let items := orTruthy (mget d "element") (orTruthy (mget d "items") (mget d "type"))
        if truthy items then checkUnrep fuel items (currentPath ++ "[]") else []
      else if ty == "tuple" then
        let items := orTruthy (mget d "items") (.jarr [])
        let itemsArray := match items with | .jarr xs => xs | v => [v]
        (((List.range itemsArray.length).zip itemsArray).flatMap fun p =>
          checkUnrep fuel p.2 (currentPath ++ "[" ++ toString p.1 ++ "]")) ++
        (if truthy (mget d "rest") then
          checkUnrep fuel (mget d "rest") (currentPath ++ "[...]") else [])
      else if ty == "union" || ty == "discriminatedunion" then
        let options := orTruthy (mget d "options") (orTruthy (mget d "schemas") (.jarr []))
        let optionsArray := match options with | .jarr xs => xs | v => [v]
        ((List.range optionsArray.length).zip optionsArray).flatMap fun p =>
          checkUnrep fuel p.2 (currentPath ++ "<union[" ++ toString p.1 ++ "]>")
      else if ty == "intersection" then
        (if truthy (mget d "left") then
          checkUnrep fuel (mget d "left") (currentPath ++ "<left>") else []) ++
        (if truthy (mget d "right") then
          checkUnrep fuel (mget d "right") (currentPath ++ "<right>") else [])
      else if ty == "record" then
        (let vt := orTruthy (mget d "valueType") (mget d "values")
         if truthy vt then checkUnrep fuel vt (currentPath ++ "<values>") else []) ++
        (let kt := orTruthy (mget d "keyType") (mget d "keys")
         if truthy kt then checkUnrep fuel kt (currentPath ++ "<keys>") else [])
      else if ty == "nullable" || ty == "optional" then
        let inner := orTruthy (mget d "innerType") (mget d "type")
        if truthy inner then checkUnrep fuel inner currentPath else []
      else if decoratorWrappers.contains ty then
        let underlying := orTruthy (mget d "innerType") (orTruthy (mget d "schema")
          (orTruthy (mget d "base") (orTruthy (mget d "type")
            (orTruthy (mget d "wrapped") (mget d "underlying")))))
        if truthy underlying then checkUnrep fuel underlying currentPath else []
      else if ty == "lazy" then [⟨"lazy", currentPath⟩]
      else []

/-- `findUnrepresentableTypes` from the source: scan from the root path `$`. -/
def findUnrepresentableTypes (fuel : Nat) (input : JVal) : List Diag :=
  checkUnrep fuel input "$"

/-- The remediation advice of one bullet of the fatal error message; every
case of the source's `switch` produces a bullet of the form
`"  • " ++ path ++ ": " ++ advice`, and this is the advice part. -/
def fixAdvice : String → String
  | "set" =>
      "Replace z.set(T) with z.array(T)\n    Example: z.set(z.string()) → z.array(z.string())\n    If uniqueness matters, add validation: .refine(arr => new Set(arr).size === arr.length, \x27Must be unique\x27)"
  | "map" =>
      "Replace z.map() with z.record()\n    Example: z.map(z.string(), z.number()) → z.record(z.string(), z.number())"
  | "date" =>
      "Replace z.date() with z.string().datetime()\n    Example: z.date() → z.string().datetime()\n    Or use z.coerce.date() if you need automatic date parsing from strings"
  | "promise" => "Remove z.promise() - promises cannot be serialized to JSON"
  | "function" => "Remove z.function() - functions cannot be serialized to JSON"
  | "symbol" =>
      "Replace z.symbol() with z.string() or z.enum([\x27symbol1\x27, \x27symbol2\x27])"
  | "undefined" =>
      "Replace z.undefined() with .optional()\n    Example: field: z.undefined() → field: z.string().optional()"
  | "void" => "Replace z.void() with z.null() or remove the field"
  | "nan" => "Replace z.nan() with z.number()"
  | "custom" =>
      "Replace z.custom() with a concrete type like z.string(), z.number(), or z.object(\x7b...\x7d)"
  | "lazy" =>
      "Lazy/recursive types may not be fully representable - consider flattening the structure"
  | t => t ++ " is not representable in JSON Schema"

/-- One remediation bullet of the fatal error message (the body of the
`unrepresentableTypes.map` in `tryZod4NativeCompat`). -/
def fixFor (d : Diag) : String :=
  "  • " ++ d.path ++ ": " ++ fixAdvice d.type

/-- `Array.prototype.join(sep)`. -/
def joinSep (sep : String) : List String → String
  | [] => ""
  | [x] => x
  | x :: rest => x ++ sep ++ joinSep sep rest

/-- The namespace tag prefixed to the fatal error message. -/
def agentsTag : String := "[@openai/agents]"

/-- The message of the fatal error raised for unrepresentable types, exactly
as composed in `tryZod4NativeCompat`. -/
def unrepErrorMessage (diags : List Diag) : String :=
  "[@openai/agents] Cannot convert Zod 4 schema to JSON Schema.\n\n" ++
  ("Found " ++ toString diags.length ++ " unrepresentable type(s):\n\n") ++
  joinSep "\n\n" (diags.map fixFor) ++
  "\n\n" ++
  "All of these types have JSON-compatible alternatives. Please update your schema.\n" ++
  "See: https://github.com/anthropics/openai-agents-js/blob/main/docs/zod-schemas.md"

/-- `s` contains `sub` as a substring. -/
def strContains (s sub : String) : Prop :=
  ∃ pre post, s = pre ++ sub ++ post

/-- Boolean prefix test on character lists. -/
def charsPrefix : List Char → List Char → Bool
  | [], _ => true
  | _ :: _, [] => false
  | a :: as, b :: bs => a == b && charsPrefix as bs

/-- Boolean containment test on character lists. -/
def charsContain : List Char → List Char → Bool
  | [], pat => pat.isEmpty
  | c :: rest, pat => charsPrefix pat (c :: rest) || charsContain rest pat

/-- Computable substring test (`String.prototype.includes`). -/
def strContainsB (s sub : String) : Bool :=
  charsContain s.toList sub.toList

/-- The runtime environment of the delegate path.  `loaded` abstracts step 3
of `tryZod4NativeCompat` (`require('zod/v4')`/`require('zod')` succeeding
and `z.toJSONSchema` being a function); `convert` abstracts the call
`z.toJSONSchema(input, {target:\x27draft-7\x27, unrepresentable:\x27any\x27,
cycles:\x27ref\x27, reused:\x27inline\x27})`, with `Except.error e` modelling
a thrown error whose message is `e`.  Both live outside this repository. -/
structure Zod4Env : Type where
  loaded : Bool
  convert : JVal → Except String JVal

/-- Outcome of `tryZod4NativeCompat`: a native document, `undefined`
(fall back to the manual converter), or a thrown error. -/
inductive DelegateResult : Type where
  | ok : JVal → DelegateResult
  | absent : DelegateResult
  | fatal : String → DelegateResult
deriving Repr

/-- `tryZod4NativeCompat` from the source.  The fatal diagnostic error is
raised inside the function's own `try`; its `catch` rethrows exactly the
errors whose message contains `agentsTag` and absorbs every other error into
`undefined`.  The diagnostic message begins with the tag, so it is rethrown;
an error thrown by the native converter is rethrown iff its message contains
the tag. -/
def tryZod4NativeCompat (env : Zod4Env) (fuel : Nat) (input : JVal) : DelegateResult :=
  if !hasZod4Marker input then .absent
  else
    let diags := findUnrepresentableTypes fuel input
    if !diags.isEmpty then .fatal (unrepErrorMessage diags)
    else if !env.loaded then .absent
    else
      match env.convert input with
      | .error e => if strContainsB e agentsTag then .fatal e else .absent
      | .ok j => if hasJsonSchemaObjectShape j then .ok j else .absent

/-- `convertProperty` from the source, parameterised by the conversion
function used on the resolved node: strip decorators, cross `optional`
wrappers (marking the property optional), then convert. -/
def convertPropertyWith (ufuel : Nat) (conv : JVal → Option Entry) (value : JVal) :
    Option Entry × Bool :=
  let r := optLoop ufuel (unwrapDecorators ufuel value) false
  (conv r.1, r.2)

/-- The field loop of `buildObjectSchema`: convert each field in declaration
order, collecting `properties` and `required`; any failing field fails the
whole object. -/
def convertPropsWith (ufuel : Nat) (conv : JVal → Option Entry) :
    List (String × JVal) → Option (List (String × Entry) × List String)
  | [] => some ([], [])
  | (key, field) :: rest =>
    match convertPropertyWith ufuel conv field with
    | (none, _) => none
    | (some s, opt) =>
      match convertPropsWith ufuel conv rest with
      | none => none
      | some (props, req) => some ((key, s) :: props, if opt then req else key :: req)

/-- `buildObjectSchema` from the source, parameterised by the conversion
function: read the shape, convert every field, and emit
`{type:'object', properties, required, additionalProperties:false}`. -/
def buildObjectSchemaWith (ufuel : Nat) (conv : JVal → Option Entry) (value : JVal) :
    Option Entry :=
  match readShape value with
  | none => none
  | some entries =>
    match convertPropsWith ufuel conv entries with
    | none => none
    | some (props, req) => some (.objE props (some req) (some false) none)

/-- `buildArraySchema` from the source. -/
def buildArraySchemaWith (conv : JVal → Option Entry)
    (d : Option (List (String × JVal))) : Option Entry :=
  match conv (extractFirst d ["element", "items", "type"]) with
  | some items => some (.arrE items false)
  | none => none

/-- `buildTupleSchema` from the source: note `.map(conv).filter(Boolean)`,
i.e. items whose conversion fails are silently dropped. -/
def buildTupleSchemaWith (conv : JVal → Option Entry)
    (d : Option (List (String × JVal))) : Option Entry :=
  let items := (coerceArray (mget d "items")).filterMap conv
  if items.isEmpty then none
  else some (.tupleE items items.length
    (if truthy (mget d "rest") then none else some items.length))

/-- `buildUnionSchema` from the source (same `.filter(Boolean)` dropping). -/
def buildUnionSchemaWith (conv : JVal → Option Entry)
    (d : Option (List (String × JVal))) : Option Entry :=
  let options := (coerceArray (nullish (mget d "options") (mget d "schemas"))).filterMap conv
  if options.isEmpty then none else some (.anyOfE options)

/-- `buildIntersectionSchema` from the source. -/
def buildIntersectionSchemaWith (conv : JVal → Option Entry)
    (d : Option (List (String × JVal))) : Option Entry :=
  match conv (mget d "left"), conv (mget d "right") with
  | some l, some r => some (.allOfE [l, r])
  | _, _ => none

/-- `buildRecordSchema` from the source. -/
def buildRecordSchemaWith (conv : JVal → Option Entry)
    (d : Option (List (String × JVal))) : Option Entry :=
  match conv (nullish (mget d "valueType") (mget d "values")) with
  | some v => some (.recordE v)
  | none => none

/-- `buildMapSchema` from the source (lossy: keys dropped). -/
def buildMapSchemaWith (conv : JVal → Option Entry)
    (d : Option (List (String × JVal))) : Option Entry :=
  match conv (nullish (mget d "valueType") (mget d "values")) with
  | some v => some (.arrE v false)
  | none => none

/-- `buildSetSchema` from the source. -/
def buildSetSchemaWith (conv : JVal → Option Entry)
    (d : Option (List (String × JVal))) : Option Entry :=
  match conv (mget d "valueType") with
  | some v => some (.arrE v true)
  | none => none

/-- `buildNullableSchema` from the source. -/
def buildNullableSchemaWith (conv : JVal → Option Entry)
    (d : Option (List (String × JVal))) : Option Entry :=
  match conv (nullish (mget d "innerType") (mget d "type")) with
  | some inner => some (.anyOfE [inner, .prim "null" none])
  | none => none

/-- `buildLiteral` from the source. -/
def buildLiteral (d : Option (List (String × JVal))) : Option Entry :=
  match d with
  | none => none
  | some fields =>
    match extractFirst (some fields) ["value", "literal"] with
    | .jundefined => none
    | lit => some (.litE lit (if isJNull lit then "null" else jsTypeof lit))

/-- `buildEnum` from the source: the four accepted internal shapes. -/
def buildEnum (d : Option (List (String × JVal))) : Option Entry :=
  match d with
  | none => none
  | some fields =>
    let values := mget (some fields) "values"
    match values with
    | .jarr xs => some (.enumE xs)
    | _ =>
      match mget (some fields) "options" with
      | .jarr ys => some (.enumE ys)
      | _ =>
        if truthy values && typeofIsObject values then some (.enumE (objValues values))
        else
          let e := mget (some fields) "enum"
          if truthy e && typeofIsObject e then some (.enumE (objValues e))
          else none

/-- `convertSchema` from the source: unwrap decorators, then dispatch on the
kind tag (fueled; fuel exhaustion yields failure). -/
def convertSchema : Nat → JVal → Option Entry
  | 0, _ => none
  | fuel + 1, value =>
    match value with
    | .jundefined => none
    | _ =>
      let unwrapped := unwrapDecorators (fuel + 1) value
      let ty := (readZodType unwrapped).getD ""
      if ty == "" then none
      else
        match simpleTypeMapping ty with
        | some e => some e
        | none =>
          let d := readZodDefinition unwrapped
          if ty == "object" then buildObjectSchemaWith (fuel + 1) (convertSchema fuel) unwrapped
          else if ty == "array" then buildArraySchemaWith (convertSchema fuel) d
          else if ty == "tuple" then buildTupleSchemaWith (convertSchema fuel) d
          else if ty == "union" then buildUnionSchemaWith (convertSchema fuel) d
          else if ty == "intersection" then buildIntersectionSchemaWith (convertSchema fuel) d
          else if ty == "literal" then buildLiteral d
          else if ty == "enum" || ty == "nativeenum" then buildEnum d
          else if ty == "record" then buildRecordSchemaWith (convertSchema fuel) d
          else if ty == "map" then buildMapSchemaWith (convertSchema fuel) d
          else if ty == "set" then buildSetSchemaWith (convertSchema fuel) d
          else if ty == "nullable" then buildNullableSchemaWith (convertSchema fuel) d
          else none

/-- `convertProperty` at a given fuel. -/
def convertProperty (fuel : Nat) (value : JVal) : Option Entry × Bool :=
  convertPropertyWith fuel (convertSchema fuel) value

/-- `buildObjectSchema` at a given fuel. -/
def buildObjectSchema (fuel : Nat) (value : JVal) : Option Entry :=
  buildObjectSchemaWith fuel (convertSchema fuel) value

/-- `buildTupleSchema` at a given fuel. -/
def buildTupleSchema (fuel : Nat) (d : Option (List (String × JVal))) : Option Entry :=
  buildTupleSchemaWith (convertSchema fuel) d

/-- `buildUnionSchema` at a given fuel. -/
def buildUnionSchema (fuel : Nat) (d : Option (List (String × JVal))) : Option Entry :=
  buildUnionSchemaWith (convertSchema fuel) d

/-- The post-processing in `zodJsonSchemaCompat` on the manual result:
default `required` to `[]`, `additionalProperties` to `false` and `$schema`
to the draft-07 URI when missing. -/
def patchDocument : Entry → Entry
  | .objE props req addl uri =>
    .objE props (some (req.getD [])) (some (addl.getD false))
      (some (uri.getD JSON_SCHEMA_DRAFT_07))
  | e => e

/-- A returned document: either the native converter's output (returned
as-is) or the manual converter's patched object schema. -/
inductive MDoc : Type where
  | native : JVal → MDoc
  | manual : Entry → MDoc
deriving Repr

/-- `zodJsonSchemaCompat` from the source: try the delegate, fall back to
the manual object builder, returning `none` (for `undefined`) when neither
path produces a document.  `Except.error` models the propagated exception. -/
def zodJsonSchemaCompat (env : Zod4Env) (fuel : Nat) (input : JVal) :
    Except String (Option MDoc) :=
  match tryZod4NativeCompat env fuel input with
  | .fatal msg => .error msg
  | .ok j => .ok (some (.native j))
  | .absent =>
    match buildObjectSchema fuel input with
    | none => .ok none
    | some schema => .ok (some (.manual (patchDocument schema)))

/-!
## Reference-graph model of `unwrapDecorators`

The `===` guard in `unwrapDecorators` compares JavaScript object references.
An inductive tree cannot alias, so to settle the claim about cyclic decorator
chains we additionally model the heap explicitly: nodes are identified by
numbers, a store maps each identifier to its kind tag and the identifier of
the resolved inner value (`innerType ?? schema ?? base ?? type ?? wrapped ??
underlying`, `none` when that chain yields no truthy value).
-/

/-- A heap node for the graph model: kind tag and resolved inner reference. -/
structure GNode : Type where
  kind : Option String
  inner : Option Nat
deriving DecidableEq, Repr

/-- One iteration of the `while` loop of `unwrapDecorators` on the heap:
`some next` means the loop assigns `current = next` and continues; `none`
means the loop stops at `id` (not a decorator, no truthy inner value, or the
inner value is reference-identical to the current node). -/
def unwrapStep (store : Nat → GNode) (id : Nat) : Option Nat :=
  if decoratorWrappers.contains (((store id).kind).getD "") then
    match (store id).inner with
    | some next => if next = id then none else some next
    | none => none
  else none

/-- `unwrapDecorators` on the heap with fuel: `some r` means the loop exits
within the given number of iterations returning node `r`; `none` means the
loop is still running when the fuel runs out. -/
def unwrapG (store : Nat → GNode) : Nat → Nat → Option Nat
  | 0, _ => none
  | fuel + 1, id =>
    match unwrapStep store id with
    | none => some id
    | some next => unwrapG store fuel next

/-- Iterate `unwrapStep` a fixed number of times (staying put once the loop
would stop). -/
def stepIter (store : Nat → GNode) : Nat → Nat → Nat
  | 0, id => id
  | n + 1, id =>
    match unwrapStep store id with
    | some next => stepIter store n next
    | none => id

/-- The loop of `unwrapDecorators` terminates on node `id`. -/
def unwrapGTerminates (store : Nat → GNode) (id : Nat) : Prop :=
  ∃ fuel, (unwrapG store fuel id).isSome

/-- The loop of `unwrapDecorators` never terminates on node `id`. -/
def unwrapGDiverges (store : Nat → GNode) (id : Nat) : Prop :=
  ∀ fuel, unwrapG store fuel id = none

/-- A heap with two decorator nodes whose inner references form a cycle of
length two: `0 → 1 → 0 → …` (constructible in JavaScript by mutating two
wrapper nodes after creation). -/
def twoCycleStore : Nat → GNode := fun id =>
  if id = 0 then ⟨some "brand", some 1⟩
  else if id = 1 then ⟨some "brand", some 0⟩
  else ⟨some "string", none⟩

/-! ## Concrete sample values (used to evaluate the theorems below) -/

/-- A Zod-3-style string node. -/
def sampleStr : JVal := .node (some "string") (some []) none false

/-- A Zod-3-style number node. -/
def sampleNum : JVal := .node (some "number") (some []) none false

/-- `z.number().optional()`. -/
def sampleOptNum : JVal := .node (some "optional") (some [("innerType", sampleNum)]) none false

/-- A node of kind `promise`, which no manual builder handles. -/
def sampleBad : JVal := .node (some "promise") (some []) none false

/-- `z.object({name: z.string(), age: z.number().optional()})` (Zod 3). -/
def sampleObjInput : JVal :=
  .node (some "object") none (some (.jobj [("name", sampleStr), ("age", sampleOptNum)])) false

/-- An environment without a loadable Zod-4 converter. -/
def envOff : Zod4Env := ⟨false, fun _ => .error ""⟩

/-- A Zod-4-style string node. -/
def sampleStr4 : JVal := .node (some "string") (some []) none true

/-- A Zod-4-style `z.set(z.string())` node. -/
def sampleSet4 : JVal := .node (some "set") (some [("valueType", sampleStr4)]) none true

/-- A Zod-4 object with a set-valued field `tags`. -/
def sampleSetInput : JVal :=
  .node (some "object") none (some (.jobj [("tags", sampleSet4)])) true

/-- An environment whose native converter throws an error whose message
happens to contain the `[@openai/agents]` tag. -/
def envBadTag : Zod4Env := ⟨true, fun _ => .error "boom [@openai/agents] boom"⟩

/-- A clean Zod-4 object (no unrepresentable kinds). -/
def sampleOk4 : JVal := .node (some "object") none (some (.jobj [("a", sampleStr4)])) true

/-- An `optional` wrapper whose definition has no `innerType`. -/
def sampleOptBroken : JVal := .node (some "optional") (some []) none false

/-- An object with a single field wrapped in the broken optional. -/
def sampleOptBrokenObj : JVal :=
  .node (some "object") none (some (.jobj [("f", sampleOptBroken)])) false

/-- An object with one convertible and one unconvertible field. -/
def sampleBadObj : JVal :=
  .node (some "object") none (some (.jobj [("good", sampleStr), ("bad", sampleBad)])) false

/-- A node whose `shape` accessor is a function that throws. -/
def sampleThrowingShape : JVal := .node (some "object") none (some (.jfn none)) false

/-- A heap holding the decorator chain `brand → readonly → string`. -/
def chainStore : Nat → GNode := fun id =>
  if id = 0 then ⟨some "brand", some 1⟩
  else if id = 1 then ⟨some "readonly", some 2⟩
  else ⟨some "string", none⟩

/-! ## Helper lemmas -/

theorem strContains_append_right (a b sub : String) (h : strContains a sub) :
    strContains (a ++ b) sub := by
  obtain ⟨pre, post, rfl⟩ := h
  exact ⟨pre, post ++ b, by simp [String.append_assoc]⟩

theorem strContains_append_left (a b sub : String) (h : strContains b sub) :
    strContains (a ++ b) sub := by
  obtain ⟨pre, post, rfl⟩ := h
  exact ⟨a ++ pre, post, by simp [String.append_assoc]⟩

theorem strContains_self (sub : String) : strContains sub sub :=
  ⟨"", "", by rw [String.empty_append, String.append_empty]⟩

theorem strContains_of_eq_append (s pre sub post : String)
    (h : s = pre ++ sub ++ post) : strContains s sub :=
  ⟨pre, post, h⟩

theorem strContains_prefix (s a b : String) (h : strContains s (a ++ b)) :
    strContains s a := by
  obtain ⟨pre, post, rfl⟩ := h
  exact ⟨pre, b ++ post, by simp [String.append_assoc]⟩

theorem strContains_append_left_prefix (s a b c : String)
    (h : strContains s (a ++ (b ++ c))) : strContains s (a ++ b) := by
  obtain ⟨pre, post, hpre⟩ := h
  exact ⟨pre, c ++ post, by rw [hpre]; simp [String.append_assoc]⟩

theorem strContains_joinSep (sep : String) (l : List String) (x : String)
    (hx : x ∈ l) : strContains (joinSep sep l) x := by
  induction l with
  | nil => cases hx
  | cons a rest ih =>
    rcases List.mem_cons.mp hx with rfl | hmem
    · cases rest with
      | nil => exact strContains_self x
      | cons b t =>
        exact strContains_append_right _ _ _
          (strContains_append_right _ _ _ (strContains_self x))
    · cases rest with
      | nil => cases hmem
      | cons b t =>
        exact strContains_append_left _ _ _ (ih hmem)

theorem strContains_unrepErrorMessage_fix (diags : List Diag) (d : Diag)
    (hd : d ∈ diags) : strContains (unrepErrorMessage diags) (fixFor d) := by
  unfold unrepErrorMessage
  apply strContains_append_right
  apply strContains_append_right
  apply strContains_append_right
  apply strContains_append_left
  exact strContains_joinSep _ _ _ (List.mem_map_of_mem fixFor hd)

theorem strContains_unrepErrorMessage_header (diags : List Diag) :
    strContains (unrepErrorMessage diags)
      "Cannot convert Zod 4 schema to JSON Schema" := by
  unfold unrepErrorMessage
  apply strContains_append_right
  apply strContains_append_right
  apply strContains_append_right
  apply strContains_append_right
  apply strContains_append_right
  exact ⟨"[@openai/agents] ", ".\n\n", by rfl⟩

theorem convertPropsWith_fail (ufuel : Nat) (conv : JVal → Option Entry) :
    ∀ (entries : List (String × JVal)) (k : String) (v : JVal),
      (k, v) ∈ entries → (convertPropertyWith ufuel conv v).1 = none →
      convertPropsWith ufuel conv entries = none := by
  intro entries
  induction entries with
  | nil => intro k v h _; cases h
  | cons head rest ih =>
    intro k v hmem hfail
    obtain ⟨key, field⟩ := head
    rcases List.mem_cons.mp hmem with heq | hmem'
    · cases heq
      cases hcp : convertPropertyWith ufuel conv v with
      | mk sOpt opt =>
        cases sOpt with
        | none => simp [convertPropsWith, hcp]
        | some s => rw [hcp] at hfail; cases hfail
    · cases hcp : convertPropertyWith ufuel conv field with
      | mk sOpt opt =>
        cases sOpt with
        | none => simp [convertPropsWith, hcp]
        | some s => simp [convertPropsWith, hcp, ih k v hmem' hfail]

theorem convertPropsWith_spec (ufuel : Nat) (conv : JVal → Option Entry) :
    ∀ (entries : List (String × JVal)) (props : List (String × Entry))
      (req : List String),
      convertPropsWith ufuel conv entries = some (props, req) →
      props.map Prod.fst = entries.map Prod.fst ∧
      req = (entries.filter fun kv => !(convertPropertyWith ufuel conv kv.2).2).map Prod.fst ∧
      ∀ kv ∈ entries, ∃ s, (convertPropertyWith ufuel conv kv.2).1 = some s ∧
        (kv.1, s) ∈ props := by
  intro entries
  induction entries with
  | nil =>
    intro props req h
    simp only [convertPropsWith, Option.some.injEq, Prod.mk.injEq] at h
    obtain ⟨hp, hr⟩ := h
    subst hp
    subst hr
    simp
  | cons head rest ih =>
    intro props req h
    obtain ⟨key, field⟩ := head
    cases hcp : convertPropertyWith ufuel conv field with
    | mk sOpt opt =>
      cases sOpt with
      | none => simp [convertPropsWith, hcp] at h
      | some s =>
        cases hrest : convertPropsWith ufuel conv rest with
        | none => simp [convertPropsWith, hcp, hrest] at h
        | some pr =>
          obtain ⟨props', req'⟩ := pr
          simp only [convertPropsWith, hcp, hrest, Option.some.injEq,
            Prod.mk.injEq] at h
          obtain ⟨hp, hr⟩ := h
          obtain ⟨hmap, hreq, hall⟩ := ih props' req' hrest
          subst hp
          subst hr
          refine ⟨by simp [hmap], ?_, ?_⟩
          · cases opt with
            | true => simp [List.filter_cons, hcp, hreq]
            | false => simp [List.filter_cons, hcp, hreq]
          · intro kv hkv
            rcases List.mem_cons.mp hkv with rfl | hmem'
            · exact ⟨s, by simp [hcp], by simp⟩
            · obtain ⟨s', hs', hmem''⟩ := hall kv hmem'
              exact ⟨s', hs', by simp [hmem'']⟩

theorem readZodType_some {v : JVal} {k : String} (h : readZodType v = some k) :
    ∃ d s z, v = .node (some k) d s z := by
  cases v <;> simp only [readZodType] at h
  all_goals first
    | exact Option.noConfusion h
    | (cases h; exact ⟨_, _, _, rfl⟩)

theorem convertSchema_optional_kind (fuel : Nat) (cur : JVal)
    (h : readZodType cur = some "optional") : convertSchema fuel cur = none := by
  obtain ⟨d, s, z, rfl⟩ := readZodType_some h
  cases fuel with
  | zero => rfl
  | succ n => rfl

theorem buildObjectSchema_shape {fuel : Nat} {input : JVal} {e : Entry}
    (h : buildObjectSchema fuel input = some e) :
    ∃ props req, e = .objE props (some req) (some false) none := by
  unfold buildObjectSchema buildObjectSchemaWith at h
  split at h
  · exact Option.noConfusion h
  · split at h
    · exact Option.noConfusion h
    · simp only [Option.some.injEq] at h
      exact ⟨_, _, h.symm⟩

theorem tryZod4_ok_shape {env : Zod4Env} {fuel : Nat} {input : JVal} {j : JVal}
    (h : tryZod4NativeCompat env fuel input = .ok j) :
    hasJsonSchemaObjectShape j = true := by
  unfold tryZod4NativeCompat at h
  by_cases hz : hasZod4Marker input = true
  · simp only [hz, Bool.not_true, Bool.false_eq_true, if_false] at h
    by_cases hd : (findUnrepresentableTypes fuel input).isEmpty = true
    · simp only [hd, Bool.not_true, Bool.false_eq_true, if_false] at h
      by_cases hl : env.loaded = true
      · simp only [hl, Bool.not_true, Bool.false_eq_true, if_false] at h
        cases hc : env.convert input with
        | error e =>
          rw [hc] at h
          by_cases ht : strContainsB e agentsTag = true <;> simp [ht] at h
        | ok j' =>
          rw [hc] at h
          by_cases hs : hasJsonSchemaObjectShape j' = true
          · simp only [hs, if_true, DelegateResult.ok.injEq] at h
            rw [← h]
            exact hs
          · simp [hs] at h
      · simp [hl] at h
    · simp [hd] at h
  · simp [hz] at h

theorem zodCompat_error_iff (env : Zod4Env) (fuel : Nat) (input : JVal)
    (msg : String) :
    zodJsonSchemaCompat env fuel input = .error msg ↔
    tryZod4NativeCompat env fuel input = .fatal msg := by
  unfold zodJsonSchemaCompat
  cases tryZod4NativeCompat env fuel input with
  | fatal m => simp
  | ok j => simp
  | absent => cases buildObstack : buildObjectSchema fuel input <;> simp

theorem length_filterMap_of_all_some {α β : Type} (f : α → Option β) :
    ∀ l : List α, (∀ x ∈ l, (f x).isSome) → (l.filterMap f).length = l.length := by
  intro l
  induction l with
  | nil => intro _; rfl
  | cons a rest ih =>
    intro h
    have ha := h a (List.mem_cons_self a rest)
    cases hfa : f a with
    | none => rw [hfa] at ha; cases ha
    | some b =>
      rw [List.filterMap_cons, hfa]
      simp only [List.length_cons]
      rw [ih fun x hx => h x (List.mem_cons_of_mem a hx)]

/-! ## Claim theorems -/

/-- C7 (amended): on every finite decorator chain — one whose iterated step
function stops after `L` iterations because the reached node is not a
decorator kind, has no truthy inner value, or its inner value is
reference-identical to itself (the guard that also stops length-1 cycles) —
the `unwrapDecorators` loop terminates within `L + 1` iterations, returning
that same innermost node for every sufficient fuel.  The original claim's
"cycles of any length" part is false: see the counterexample, a reference
cycle of length two on which the loop never exits. -/
theorem c7_unwrap_chain_terminates (store : Nat → GNode) (L id fuel : Nat)
    (hstop : unwrapStep store (stepIter store L id) = none) (hfuel : L < fuel) :
    unwrapG store fuel id = some (stepIter store L id) := by
  revert hstop hfuel
  induction L generalizing id fuel with
  | zero =>
    intro hstop hfuel
    cases fuel with
    | zero => omega
    | succ f =>
      simp only [stepIter] at hstop ⊢
      simp [unwrapG, hstop]
  | succ L ih =>
    intro hstop hfuel
    cases fuel with
    | zero => omega
    | succ f =>
      cases hs : unwrapStep store id with
      | none =>
        have hiter : stepIter store (L + 1) id = id := by simp [stepIter, hs]
        rw [hiter] at hstop ⊢
        simp [unwrapG, hs]
      | some next =>
        have hiter : stepIter store (L + 1) id = stepIter store L next := by
          simp [stepIter, hs]
        rw [hiter] at hstop ⊢
        simp only [unwrapG, hs]
        exact ih next f hstop (by omega)

theorem twoCycle_unwrap_none : ∀ fuel,
    unwrapG twoCycleStore fuel 0 = none ∧ unwrapG twoCycleStore fuel 1 = none := by
  intro fuel
  induction fuel with
  | zero => exact ⟨rfl, rfl⟩
  | succ f ih =>
    have h0 : unwrapStep twoCycleStore 0 = some 1 := rfl
    have h1 : unwrapStep twoCycleStore 1 = some 0 := rfl
    exact ⟨by simp only [unwrapG, h0]; exact ih.2,
           by simp only [unwrapG, h1]; exact ih.1⟩

/-- C7 counterexample: on a decorator cycle of length two (node 0's inner
reference is node 1 and vice versa, both of decorator kind `brand`), the
`unwrapDecorators` loop never exits — the `next === current` guard only
detects cycles of length one — refuting "for every input node, including
nodes whose decorator wrappers form a cycle of any length, the decorator
unwrapper terminates". -/
theorem c7_counterexample : unwrapGDiverges twoCycleStore 0 :=
  fun fuel => (twoCycle_unwrap_none fuel).1

/-- Witness for C7: the chain `brand → readonly → string` stops after two
steps, and `unwrapDecorators` with fuel 3 returns the innermost node 2. -/
theorem c7_witness :
    unwrapStep chainStore (stepIter chainStore 2 0) = none ∧
    unwrapG chainStore 3 0 = some 2 :=
  ⟨by decide, c7_unwrap_chain_terminates chainStore 2 0 3 (by decide) (by decide)⟩

/-- C8: the scanner records one diagnostic, carrying the node's kind and its
structural path, for every node whose kind is in the fixed unrepresentable
set (set, map, date, promise, function, custom, nan, undefined, void,
symbol), without descending into that node's children; it records every
lazy node as a `lazy` diagnostic instead of following it (a cycle, which the
validation library can only close through a lazy thunk, is therefore never
entered, and `checkUnrep` is a total function — scanning terminates); and on
object nodes it recurses into each shape field in declaration order,
extending the path with the field name. -/
theorem c8_scanner_behavior (fuel : Nat) (v : JVal) (p : String) :
    (∀ k, readZodType v = some k → k ∈ unrepresentableKinds →
      checkUnrep (fuel + 1) v p = [⟨k, p⟩]) ∧
    (readZodType v = some "lazy" → checkUnrep (fuel + 1) v p = [⟨"lazy", p⟩]) ∧
    (readZodType v = some "object" → ∀ es, readShape v = some es →
      checkUnrep (fuel + 1) v p =
        es.flatMap fun kv => checkUnrep fuel kv.2 (p ++ "." ++ kv.1)) := by
  refine ⟨?_, ?_, ?_⟩
  · intro k hk hmem
    obtain ⟨d, s, z, rfl⟩ := readZodType_some hk
    simp only [unrepresentableKinds, List.mem_cons, List.not_mem_nil, or_false] at hmem
    rcases hmem with rfl | rfl | rfl | rfl | rfl | rfl | rfl | rfl | rfl | rfl <;> rfl
  · intro hk
    obtain ⟨d, s, z, rfl⟩ := readZodType_some hk
    rfl
  · intro hk es hes
    obtain ⟨d, s, z, rfl⟩ := readZodType_some hk
    show (match readShape (.node (some "object") d s z) with
      | some entries =>
          entries.flatMap fun kv => checkUnrep fuel kv.2 (p ++ "." ++ kv.1)
      | none => []) = _
    rw [hes]

/-- Witness for C8: a set node carrying a child is recorded at its path
without descent, and a lazy node is recorded as a diagnostic. -/
theorem c8_witness :
    checkUnrep 5 sampleSet4 "$.tags" = [⟨"set", "$.tags"⟩] ∧
    checkUnrep 5 (.node (some "lazy") (some []) none true) "$" = [⟨"lazy", "$"⟩] :=
  ⟨(c8_scanner_behavior 4 sampleSet4 "$.tags").1 "set" (by rfl) (by decide),
   (c8_scanner_behavior 4 (.node (some "lazy") (some []) none true) "$").2.1 (by rfl)⟩

/-- C2: for every input recognized as the Zod-4 representation for which the
scanner finds at least one unrepresentable kind, the delegate raises the
fatal error (it never silently degrades), and the error message contains the
generic header "Cannot convert Zod 4 schema to JSON Schema" and, for each
diagnostic, a bullet naming that exact structural path followed by the
concrete replacement advice for its kind — in particular, the bullet for a
`set` diagnostic contains "Replace z.set(T) with z.array(T)". -/
theorem c2_delegate_fatal (env : Zod4Env) (fuel : Nat) (input : JVal)
    (hz : hasZod4Marker input = true)
    (hdiag : findUnrepresentableTypes fuel input ≠ []) :
    tryZod4NativeCompat env fuel input =
      .fatal (unrepErrorMessage (findUnrepresentableTypes fuel input)) ∧
    strContains (unrepErrorMessage (findUnrepresentableTypes fuel input))
      "Cannot convert Zod 4 schema to JSON Schema" ∧
    ∀ d ∈ findUnrepresentableTypes fuel input,
      strContains (unrepErrorMessage (findUnrepresentableTypes fuel input))
        ("  • " ++ d.path ++ ": " ++ fixAdvice d.type) ∧
      (d.type = "set" →
        strContains (unrepErrorMessage (findUnrepresentableTypes fuel input))
          (("  • " ++ d.path ++ ": ") ++ "Replace z.set(T) with z.array(T)")) := by
  refine ⟨?_, strContains_unrepErrorMessage_header _, ?_⟩
  · unfold tryZod4NativeCompat
    have hne : (findUnrepresentableTypes fuel input).isEmpty = false := by
      cases hl : findUnrepresentableTypes fuel input with
      | nil => exact absurd hl hdiag
      | cons a t => rfl
    simp [hz, hne]
  · intro d hd
    have hfix := strContains_unrepErrorMessage_fix _ d hd
    refine ⟨hfix, ?_⟩
    intro hset
    have hfix' : strContains (unrepErrorMessage (findUnrepresentableTypes fuel input))
        (("  • " ++ d.path ++ ": ") ++
          ("Replace z.set(T) with z.array(T)" ++
            "\n    Example: z.set(z.string()) → z.array(z.string())\n    If uniqueness matters, add validation: .refine(arr => new Set(arr).size === arr.length, \x27Must be unique\x27)")) := by
      have hsplit : fixFor d = ("  • " ++ d.path ++ ": ") ++
          ("Replace z.set(T) with z.array(T)" ++
            "\n    Example: z.set(z.string()) → z.array(z.string())\n    If uniqueness matters, add validation: .refine(arr => new Set(arr).size === arr.length, \x27Must be unique\x27)") := by
        unfold fixFor
        rw [hset]
        congr 1
      rw [← hsplit]
      exact hfix
    exact strContains_append_left_prefix _ _ _ _ hfix'

/-- Witness for C2: a Zod-4 object with a set-valued field `tags` produces
the single diagnostic `{set, $.tags}` and the delegate raises the fatal
error whose message carries the header and the set-replacement bullet. -/
theorem c2_witness :
    hasZod4Marker sampleSetInput = true ∧
    findUnrepresentableTypes 9 sampleSetInput = [⟨"set", "$.tags"⟩] ∧
    (tryZod4NativeCompat envOff 9 sampleSetInput =
      .fatal (unrepErrorMessage (findUnrepresentableTypes 9 sampleSetInput)) ∧
    strContains (unrepErrorMessage (findUnrepresentableTypes 9 sampleSetInput))
      "Cannot convert Zod 4 schema to JSON Schema" ∧
    ∀ d ∈ findUnrepresentableTypes 9 sampleSetInput,
      strContains (unrepErrorMessage (findUnrepresentableTypes 9 sampleSetInput))
        ("  • " ++ d.path ++ ": " ++ fixAdvice d.type) ∧
      (d.type = "set" →
        strContains (unrepErrorMessage (findUnrepresentableTypes 9 sampleSetInput))
          (("  • " ++ d.path ++ ": ") ++ "Replace z.set(T) with z.array(T)"))) :=
  ⟨rfl, by decide, c2_delegate_fatal envOff 9 sampleSetInput rfl (by decide)⟩

/-- C3 (amended): the entry point propagates an exception if and only if the
input carries the Zod-4 marker and either the scanner finds unrepresentable
kinds, or the native converter itself throws an error whose message contains
the `[@openai/agents]` tag (the code recognises its own fatal error by that
tag, so such foreign errors are rethrown rather than absorbed); every other
failure falls back silently to the manual path. -/
theorem c3_amended_error_conditions (env : Zod4Env) (fuel : Nat) (input : JVal) :
    (∃ msg, zodJsonSchemaCompat env fuel input = .error msg) ↔
      (hasZod4Marker input = true ∧
        (findUnrepresentableTypes fuel input ≠ [] ∨
          (env.loaded = true ∧ ∃ e, env.convert input = .error e ∧
            strContainsB e agentsTag = true))) := by
  constructor
  · rintro ⟨msg, hmsg⟩
    rw [zodCompat_error_iff] at hmsg
    unfold tryZod4NativeCompat at hmsg
    by_cases hz : hasZod4Marker input = true
    · simp only [hz, Bool.not_true, Bool.false_eq_true, if_false] at hmsg
      by_cases hd : (findUnrepresentableTypes fuel input).isEmpty = true
      · simp only [hd, Bool.not_true, Bool.false_eq_true, if_false] at hmsg
        by_cases hl : env.loaded = true
        · simp only [hl, Bool.not_true, Bool.false_eq_true, if_false] at hmsg
          cases hc : env.convert input with
          | error e =>
            rw [hc] at hmsg
            by_cases ht : strContainsB e agentsTag = true
            · exact ⟨hz, Or.inr ⟨hl, e, rfl, ht⟩⟩
            · simp [ht] at hmsg
          | ok j =>
            rw [hc] at hmsg
            by_cases hs : hasJsonSchemaObjectShape j = true <;> simp [hs] at hmsg
        · simp [hl] at hmsg
      · refine ⟨hz, Or.inl fun hnil => hd ?_⟩
        rw [hnil]
        rfl
    · simp [hz] at hmsg
  · rintro ⟨hz, hd | ⟨hl, e, hc, ht⟩⟩
    · refine ⟨unrepErrorMessage (findUnrepresentableTypes fuel input), ?_⟩
      rw [zodCompat_error_iff]
      unfold tryZod4NativeCompat
      have hne : (findUnrepresentableTypes fuel input).isEmpty = false := by
        cases hlz : findUnrepresentableTypes fuel input with
        | nil => exact absurd hlz hd
        | cons a t => rfl
      simp [hz, hne]
    · by_cases hdg : (findUnrepresentableTypes fuel input).isEmpty = true
      · refine ⟨e, ?_⟩
        rw [zodCompat_error_iff]
        unfold tryZod4NativeCompat
        simp [hz, hdg, hl, hc, ht]
      · refine ⟨unrepErrorMessage (findUnrepresentableTypes fuel input), ?_⟩
        rw [zodCompat_error_iff]
        unfold tryZod4NativeCompat
        have hne : (findUnrepresentableTypes fuel input).isEmpty = false := by
          cases hh : (findUnrepresentableTypes fuel input).isEmpty with
          | true => exact absurd hh hdg
          | false => rfl
        simp [hz, hne]

/-- Witness for C3: the amended error condition is realised by an
environment whose native converter throws a tagged error on a clean Zod-4
input. -/
theorem c3_witness : ∃ msg, zodJsonSchemaCompat envBadTag 9 sampleOk4 = .error msg :=
  (c3_amended_error_conditions envBadTag 9 sampleOk4).mpr
    ⟨rfl, Or.inr ⟨rfl, "boom [@openai/agents] boom", rfl, rfl⟩⟩

/-- C3 counterexample: a clean Zod-4 input (the scanner finds nothing) with
a native converter that throws an error whose message contains the
`[@openai/agents]` tag makes the entry point propagate that exception —
refuting "throws if and only if the input is recognized as the newer
representation and contains unrepresentable kinds; every other failure
results in silent fallback, never a propagated exception". -/
theorem c3_counterexample :
    zodJsonSchemaCompat envBadTag 9 sampleOk4 =
      .error "boom [@openai/agents] boom" ∧
    findUnrepresentableTypes 9 sampleOk4 = [] :=
  ⟨rfl, rfl⟩

/-- C1: whenever the delegate path yields `absent` and the manual path
succeeds, the returned document is an object schema (`Entry.objE` is the
`{type:'object', …}` shape) with `additionalProperties = false` and
`$schema` equal to the draft-07 URI; its `required` array lists exactly the
top-level fields whose resolution of decorator and optional wrapper chains
(the optional flag recorded by `convertProperty`) does not cross an
`optional` wrapper, each exactly once and in declaration order (given the
JavaScript object invariant that the shape's keys are distinct); optional
fields appear in `properties` but never in `required`. -/
theorem c1_manual_document (env : Zod4Env) (fuel : Nat) (input : JVal)
    (entries : List (String × JVal)) (doc : Entry)
    (habs : tryZod4NativeCompat env fuel input = .absent)
    (hshape : readShape input = some entries)
    (hnodup : (entries.map Prod.fst).Nodup)
    (hdoc : zodJsonSchemaCompat env fuel input = .ok (some (.manual doc))) :
    ∃ props req,
      doc = .objE props (some req) (some false) (some JSON_SCHEMA_DRAFT_07) ∧
      props.map Prod.fst = entries.map Prod.fst ∧
      req = (entries.filter fun kv => !(convertProperty fuel kv.2).2).map Prod.fst ∧
      req.Nodup ∧
      List.Sublist req (entries.map Prod.fst) ∧
      (∀ kv ∈ entries, (convertProperty fuel kv.2).2 = true →
        kv.1 ∈ props.map Prod.fst ∧ kv.1 ∉ req) := by
  cases hprops : convertPropsWith fuel (convertSchema fuel) entries with
  | none =>
    exfalso
    have hb : buildObjectSchema fuel input = none := by
      unfold buildObjectSchema buildObjectSchemaWith
      simp only [hshape, hprops]
    unfold zodJsonSchemaCompat at hdoc
    rw [habs, hb] at hdoc
    simp at hdoc
  | some pr =>
    obtain ⟨props, req⟩ := pr
    have hb : buildObjectSchema fuel input =
        some (.objE props (some req) (some false) none) := by
      unfold buildObjectSchema buildObjectSchemaWith
      simp only [hshape, hprops]
    unfold zodJsonSchemaCompat at hdoc
    rw [habs, hb] at hdoc
    simp only [Except.ok.injEq, Option.some.injEq, MDoc.manual.injEq] at hdoc
    obtain ⟨hmap, hreq, hall⟩ :=
      convertPropsWith_spec fuel (convertSchema fuel) entries props req hprops
    refine ⟨props, req, ?_, hmap, hreq, ?_, ?_, ?_⟩
    · rw [← hdoc]
      rfl
    · rw [hreq]
      exact hnodup.sublist ((List.filter_sublist entries).map Prod.fst)
    · rw [hreq]
      exact (List.filter_sublist entries).map Prod.fst
    · intro kv hkv hflag
      constructor
      · rw [hmap]
        exact List.mem_map_of_mem Prod.fst hkv
      · rw [hreq]
        intro hmem
        obtain ⟨kv', hkv', hfst⟩ := List.mem_map.mp hmem
        have hkv'mem : kv' ∈ entries := List.mem_of_mem_filter hkv'
        have hpred := List.of_mem_filter hkv'
        have hkveq : kv' = kv :=
          List.inj_on_of_nodup_map hnodup hkv'mem hkv hfst
        rw [hkveq] at hpred
        rw [show convertPropertyWith fuel (convertSchema fuel) kv.2 =
          convertProperty fuel kv.2 from rfl, hflag] at hpred
        cases hpred

/-- Witness for C1: the scenario `{name: z.string(), age:
z.number().optional()}` produces a document with `required = ["name"]`. -/
theorem c1_witness :
    tryZod4NativeCompat envOff 9 sampleObjInput = DelegateResult.absent ∧
    ∃ props req,
      Entry.objE [("name", Entry.prim "string" none), ("age", Entry.prim "number" none)]
          (some ["name"]) (some false) (some JSON_SCHEMA_DRAFT_07) =
        Entry.objE props (some req) (some false) (some JSON_SCHEMA_DRAFT_07) ∧
      props.map Prod.fst = [("name", sampleStr), ("age", sampleOptNum)].map Prod.fst ∧
      req = ([("name", sampleStr), ("age", sampleOptNum)].filter
        fun kv => !(convertProperty 9 kv.2).2).map Prod.fst ∧
      req.Nodup ∧
      List.Sublist req ([("name", sampleStr), ("age", sampleOptNum)].map Prod.fst) ∧
      (∀ kv ∈ [("name", sampleStr), ("age", sampleOptNum)],
        (convertProperty 9 kv.2).2 = true →
        kv.1 ∈ props.map Prod.fst ∧ kv.1 ∉ req) :=
  ⟨rfl, c1_manual_document envOff 9 sampleObjInput
    [("name", sampleStr), ("age", sampleOptNum)] _ rfl rfl (by decide) rfl⟩

/-- C4: on the manual path, if the conversion of any field of an object's
shape fails, the whole object conversion returns `absent`; and when it
succeeds, every declared field appears in `properties` (no partial
objects). -/
theorem c4_object_all_or_nothing (fuel : Nat) (input : JVal)
    (entries : List (String × JVal)) (hshape : readShape input = some entries) :
    ((∃ kv ∈ entries, (convertProperty fuel kv.2).1 = none) →
      buildObjectSchema fuel input = none) ∧
    (∀ e, buildObjectSchema fuel input = some e →
      ∃ props req, e = .objE props (some req) (some false) none ∧
        props.map Prod.fst = entries.map Prod.fst ∧
        ∀ kv ∈ entries, ∃ s, (convertProperty fuel kv.2).1 = some s ∧
          (kv.1, s) ∈ props) := by
  constructor
  · rintro ⟨kv, hkv, hfail⟩
    unfold buildObjectSchema buildObjectSchemaWith
    simp only [hshape,
      convertPropsWith_fail fuel (convertSchema fuel) entries kv.1 kv.2 hkv hfail]
  · intro e hbuild
    cases hprops : convertPropsWith fuel (convertSchema fuel) entries with
    | none =>
      exfalso
      have hb : buildObjectSchema fuel input = none := by
        unfold buildObjectSchema buildObjectSchemaWith
        simp only [hshape, hprops]
      rw [hb] at hbuild
      cases hbuild
    | some pr =>
      obtain ⟨props, req⟩ := pr
      have hb : buildObjectSchema fuel input =
          some (.objE props (some req) (some false) none) := by
        unfold buildObjectSchema buildObjectSchemaWith
        simp only [hshape, hprops]
      rw [hb] at hbuild
      simp only [Option.some.injEq] at hbuild
      obtain ⟨hmap, _, hall⟩ :=
        convertPropsWith_spec fuel (convertSchema fuel) entries props req hprops
      exact ⟨props, req, hbuild.symm, hmap, hall⟩

/-- Witness for C4: an object with one convertible field and one `promise`
field converts to `absent`. -/
theorem c4_witness :
    (convertProperty 9 sampleBad).1 = none ∧
    buildObjectSchema 9 sampleBadObj = none :=
  ⟨rfl, (c4_object_all_or_nothing 9 sampleBadObj
      [("good", sampleStr), ("bad", sampleBad)] rfl).1
    ⟨("bad", sampleBad), List.mem_cons_of_mem _ (List.mem_cons_self _ _), rfl⟩⟩

/-- C9: when a field's decorator-stripped node is an `optional` wrapper
whose resolved `innerType` is not truthy (or is identical to the wrapper
itself), `convertProperty` still marks the field optional but its schema is
`none` — the kind `optional` has no builder in `convertSchema` — so the
conversion of any enclosing object returns `absent`. -/
theorem c9_broken_optional (fuel : Nat) (v : JVal)
    (hopt : readZodType (unwrapDecorators (fuel + 1) v) = some "optional")
    (hnext :
      truthy (unwrapDecorators (fuel + 1)
        (mget (readZodDefinition (unwrapDecorators (fuel + 1) v)) "innerType")) = false ∨
      jeqF (fuel + 1) (unwrapDecorators (fuel + 1)
        (mget (readZodDefinition (unwrapDecorators (fuel + 1) v)) "innerType"))
        (unwrapDecorators (fuel + 1) v) = true) :
    convertProperty (fuel + 1) v = (none, true) ∧
    (∀ input entries k, readShape input = some entries → (k, v) ∈ entries →
      buildObjectSchema (fuel + 1) input = none) := by
  have hcond : optionalWrappers.contains
      ((readZodType (unwrapDecorators (fuel + 1) v)).getD "") = true := by
    rw [hopt]
    rfl
  have hloop : optLoop (fuel + 1) (unwrapDecorators (fuel + 1) v) false =
      (unwrapDecorators (fuel + 1) v, true) := by
    simp only [optLoop, hcond, if_true]
    rcases hnext with hn | hn
    · simp [hn]
    · simp [hn]
  have hcp : convertProperty (fuel + 1) v = (none, true) := by
    unfold convertProperty convertPropertyWith
    simp only [hloop]
    rw [convertSchema_optional_kind (fuel + 1) _ hopt]
  refine ⟨hcp, ?_⟩
  intro input entries k hsh hmem
  have hfail : (convertPropertyWith (fuel + 1) (convertSchema (fuel + 1)) v).1 = none := by
    rw [show convertPropertyWith (fuel + 1) (convertSchema (fuel + 1)) v =
      convertProperty (fuel + 1) v from rfl, hcp]
  unfold buildObjectSchema buildObjectSchemaWith
  simp only [hsh,
    convertPropsWith_fail (fuel + 1) (convertSchema (fuel + 1)) entries k v hmem hfail]

/-- Witness for C9: an `optional` node with an empty definition is marked
optional but converts to `none`, and an object containing it converts to
`absent`. -/
theorem c9_witness :
    convertProperty 3 sampleOptBroken = (none, true) ∧
    buildObjectSchema 3 sampleOptBrokenObj = none :=
  ⟨(c9_broken_optional 2 sampleOptBroken rfl (Or.inl rfl)).1,
   (c9_broken_optional 2 sampleOptBroken rfl (Or.inl rfl)).2
      sampleOptBrokenObj [("f", sampleOptBroken)] "f" rfl (List.mem_cons_self _ _)⟩

/-- C10: on the manual path, a root from which no object shape can be read
makes the entry point return `absent` (`.ok none`); and every document the
entry point returns has an object-schema root — the manual document is an
`Entry.objE` (the `{type:'object', …}` shape) and the native document
passed `hasJsonSchemaObjectShape`. -/
theorem c10_unreadable_root (env : Zod4Env) (fuel : Nat) (input : JVal) :
    (tryZod4NativeCompat env fuel input = .absent → readShape input = none →
      zodJsonSchemaCompat env fuel input = .ok none) ∧
    (∀ d, zodJsonSchemaCompat env fuel input = .ok (some d) →
      (∃ props req ap u, d = .manual (.objE props req ap u)) ∨
      (∃ j, d = .native j ∧ hasJsonSchemaObjectShape j = true)) := by
  constructor
  · intro habs hnone
    have hb : buildObjectSchema fuel input = none := by
      unfold buildObjectSchema buildObjectSchemaWith
      simp only [hnone]
    unfold zodJsonSchemaCompat
    rw [habs, hb]
  · intro d hd
    cases htry : tryZod4NativeCompat env fuel input with
    | fatal m =>
      unfold zodJsonSchemaCompat at hd
      rw [htry] at hd
      simp at hd
    | ok j =>
      unfold zodJsonSchemaCompat at hd
      rw [htry] at hd
      simp only [Except.ok.injEq, Option.some.injEq] at hd
      exact Or.inr ⟨j, hd.symm, tryZod4_ok_shape htry⟩
    | absent =>
      unfold zodJsonSchemaCompat at hd
      rw [htry] at hd
      cases hb : buildObjectSchema fuel input with
      | none =>
        rw [hb] at hd
        simp at hd
      | some schema =>
        rw [hb] at hd
        simp only [Except.ok.injEq, Option.some.injEq] at hd
        obtain ⟨props, req, rfl⟩ := buildObjectSchema_shape hb
        refine Or.inl ⟨props, some req, some false, some JSON_SCHEMA_DRAFT_07, ?_⟩
        rw [← hd]
        rfl

/-- Witness for C10: a root node whose `shape` accessor throws yields no
shape and the entry point returns `absent`. -/
theorem c10_witness :
    readShape sampleThrowingShape = none ∧
    zodJsonSchemaCompat envOff 3 sampleThrowingShape = .ok none :=
  ⟨rfl, (c10_unreadable_root envOff 3 sampleThrowingShape).1 rfl rfl⟩

/-- C5 (amended): the tuple builder fails exactly when no positional item
converts successfully (in particular when the item list is empty), and the
union builder fails exactly when no option converts successfully (in
particular when zero options exist); items or options whose conversion
fails are silently dropped from the result (`.map(convertSchema)
.filter(Boolean)`) rather than propagating the failure — the successful
union result is the `anyOf` of exactly the surviving options. -/
theorem c5_amended_drop_semantics (fuel : Nat) (d : Option (List (String × JVal))) :
    (buildTupleSchema fuel d = none ↔
      (coerceArray (mget d "items")).filterMap (convertSchema fuel) = []) ∧
    (buildUnionSchema fuel d = none ↔
      (coerceArray (nullish (mget d "options") (mget d "schemas"))).filterMap
        (convertSchema fuel) = []) ∧
    (∀ e, buildUnionSchema fuel d = some e →
      e = .anyOfE ((coerceArray (nullish (mget d "options") (mget d "schemas"))).filterMap
        (convertSchema fuel))) := by
  refine ⟨?_, ?_, ?_⟩
  · simp only [buildTupleSchema, buildTupleSchemaWith]
    cases hfm : (coerceArray (mget d "items")).filterMap (convertSchema fuel) with
    | nil => simp [hfm]
    | cons a t => simp [hfm]
  · simp only [buildUnionSchema, buildUnionSchemaWith]
    cases hfm : (coerceArray (nullish (mget d "options") (mget d "schemas"))).filterMap
        (convertSchema fuel) with
    | nil => simp [hfm]
    | cons a t => simp [hfm]
  · intro e he
    simp only [buildUnionSchema, buildUnionSchemaWith] at he
    cases hfm : (coerceArray (nullish (mget d "options") (mget d "schemas"))).filterMap
        (convertSchema fuel) with
    | nil => rw [hfm] at he; simp at he
    | cons a t =>
      rw [hfm] at he
      simp only [List.isEmpty_cons, Bool.false_eq_true, if_false,
        Option.some.injEq] at he
      exact he.symm

/-- C5 counterexample: in the tuple `[z.string(), promise-kind]` the second
item's conversion fails, yet the tuple builder succeeds with the failing
item silently dropped (one item, `minItems = maxItems = 1`) — refuting "the
tuple builder fails (returns absent) if the conversion of any positional
item fails … neither builder produces an entry that silently drops a
failing child". -/
theorem c5_counterexample :
    convertSchema 9 sampleBad = none ∧
    buildTupleSchema 9 (some [("items", JVal.jarr [sampleStr, sampleBad])]) =
      some (.tupleE [.prim "string" none] 1 (some 1)) :=
  ⟨rfl, rfl⟩

/-- Witness for C5: for a union with one convertible and one failing option,
the successful result is the `anyOf` of exactly the surviving options. -/
theorem c5_witness :
    Entry.anyOfE [Entry.prim "string" none] =
      .anyOfE ((coerceArray (nullish
        (mget (some [("options", JVal.jarr [sampleStr, sampleBad])]) "options")
        (mget (some [("options", JVal.jarr [sampleStr, sampleBad])]) "schemas"))).filterMap
        (convertSchema 9)) :=
  (c5_amended_drop_semantics 9 (some [("options", JVal.jarr [sampleStr, sampleBad])])).2.2
    (Entry.anyOfE [Entry.prim "string" none]) rfl

/-- C6: every successful tuple conversion is an array entry
(`Entry.tupleE` is the `{type:'array', …}` shape) whose `items` are the
successful conversions of the positional items in declaration order (a
`filterMap`, hence order-preserving), whose `minItems` equals the length of
the recorded items array, and whose `maxItems` is present — equal to that
same count — if and only if the tuple's definition has no truthy `rest`
element; when every positional item converts, the recorded count moreover
equals the declared item count. -/
theorem c6_tuple_success_shape (fuel : Nat) (d : Option (List (String × JVal)))
    (e : Entry) (h : buildTupleSchema fuel d = some e) :
    ∃ items, items = (coerceArray (mget d "items")).filterMap (convertSchema fuel) ∧
      items ≠ [] ∧
      e = .tupleE items items.length
        (if truthy (mget d "rest") then none else some items.length) ∧
      ((∀ x ∈ coerceArray (mget d "items"), (convertSchema fuel x).isSome) →
        items.length = (coerceArray (mget d "items")).length) := by
  simp only [buildTupleSchema, buildTupleSchemaWith] at h
  cases hfm : (coerceArray (mget d "items")).filterMap (convertSchema fuel) with
  | nil => rw [hfm] at h; simp at h
  | cons a t =>
    rw [hfm] at h
    simp only [List.isEmpty_cons, Bool.false_eq_true, if_false,
      Option.some.injEq] at h
    refine ⟨a :: t, rfl, by simp, h.symm, ?_⟩
    intro hall
    have hlen := length_filterMap_of_all_some (convertSchema fuel)
      (coerceArray (mget d "items")) hall
    rw [hfm] at hlen
    exact hlen

/-- Witness for C6: the tuple `[z.string(), z.number()]` with no rest
element yields `{type:'array', items:[string, number], minItems:2,
maxItems:2}`. -/
theorem c6_witness :
    ∃ items,
      items = (coerceArray (mget (some [("items", JVal.jarr [sampleStr, sampleNum])])
        "items")).filterMap (convertSchema 9) ∧
      items ≠ [] ∧
      Entry.tupleE [Entry.prim "string" none, Entry.prim "number" none] 2 (some 2) =
        .tupleE items items.length
          (if truthy (mget (some [("items", JVal.jarr [sampleStr, sampleNum])]) "rest")
            then none else some items.length) ∧
      ((∀ x ∈ coerceArray (mget (some [("items", JVal.jarr [sampleStr, sampleNum])]) "items"),
          (convertSchema 9 x).isSome) →
        items.length =
          (coerceArray (mget (some [("items", JVal.jarr [sampleStr, sampleNum])]) "items")).length) :=
  c6_tuple_success_shape 9 (some [("items", JVal.jarr [sampleStr, sampleNum])])
    (Entry.tupleE [Entry.prim "string" none, Entry.prim "number" none] 2 (some 2)) rfl

end ZodCompat
